import Mathlib

/-!
Verification of the table-reconciliation core of `AS/bls_data.py`.

The program is a three-stage batch pipeline over in-memory tables:

* `clean_data` loads an agency spreadsheet and a taxonomy crosswalk,
  filters the agency rows to `Occupation type == "Line item"`, normalizes
  the title columns with `.strip().lower()`, and left-merges agency with
  crosswalk on the normalized 2019 title, keeping `name` (2010 title) and
  `employmentGrowth`.
* `BG_ONET_BGTocc_mapping` posts a graph query, parses
  `response["results"]["bindings"]`, and collects the lowercased
  `OnetName`/`BgtOccName` values into a two-column bridge table.
* `merge_data` inner-merges the growth table with the bridge on
  `name = onet`, lowercases the occupation table column `bgtOccInfo`
  into a join key, left-merges occupations with the intermediate, drops
  the colliding columns `name_y`, `employmentGrowth_x`,
  `bgtOccInfo_lower`, `bgtOccInfo_y` and renames the survivors back.

Tables are embedded as lists of structures, one structure per schema.
Pandas left/inner merges are embedded by explicit flat-maps over the left
table with a filter over the right table, reflecting that pandas keeps
left order, emits one row per matching right row, and pads a left join
with nulls when no right row matches.  Python expressions that can raise
(`.strip()` on a non-string cell, `d[key]` on a missing key) are embedded
in `Option`/`Except`.  The growth value is kept polymorphic in `α`, since
the pipeline never inspects it.
-/

set_option autoImplicit false

/-- Embeds the Python string method `.lower()`: lowercase every character. -/
def pyLower (s : String) : String :=
  String.mk (s.data.map Char.toLower)

/-- Embeds the Python string method `.strip()`: drop leading and trailing
whitespace. -/
def pyStrip (s : String) : String :=
  String.mk (((s.data.dropWhile Char.isWhitespace).reverse.dropWhile Char.isWhitespace).reverse)

/-- A minimal JSON value, enough for the shape `json.loads` hands to
`BG_ONET_BGTocc_mapping`: the response body. -/
inductive Json where
  | str : String → Json
  | num : Int → Json
  | obj : List (String × Json) → Json
  | arr : List Json → Json

/-- Dictionary lookup on the field list of a JSON object. -/
def lookupField : List (String × Json) → String → Option Json
  | [], _ => none
  | (k, v) :: rest, key => if k == key then some v else lookupField rest key

/-- Embeds the Python subscript `d[key]`: `some` on a dict with the key
present, `none` (KeyError / TypeError) otherwise. -/
def Json.get? (j : Json) (key : String) : Option Json :=
  match j with
  | .obj fields => lookupField fields key
  | _ => none

/-- A JSON value used as a Python `str`; `none` embeds the AttributeError
raised when the value is not a string. -/
def Json.asStr? : Json → Option String
  | .str s => some s
  | _ => none

/-- A JSON value used as a Python iterable list. -/
def Json.asArr? : Json → Option (List Json)
  | .arr l => some l
  | _ => none

/-- Embeds a Python list comprehension whose body may raise: the whole
comprehension fails if any element fails. -/
def mapStrict {α β : Type} (f : α → Option β) : List α → Option (List β)
  | [] => some []
  | a :: as =>
    match f a with
    | none => none
    | some b => (mapStrict f as).map (fun bs => b :: bs)

/-- Embeds a Python loop over a list whose body may raise, in `Except`. -/
def mapE {ε α β : Type} (f : α → Except ε β) : List α → Except ε (List β)
  | [] => .ok []
  | a :: as =>
    match f a with
    | .error e => .error e
    | .ok b => (mapE f as).map (fun bs => b :: bs)

/-- Concatenation of one list per input row: the shape of a pandas merge,
one block of output rows per left row. -/
def flatMapL {α β : Type} (f : α → List β) : List α → List β
  | [] => []
  | a :: as => f a ++ flatMapL f as

/-! ## Stage 2: `BG_ONET_BGTocc_mapping` (taxonomy bridge fetch) -/

/-- Extraction of one SPARQL binding, embedding
`i["OnetName"]["value"].lower()` and `i["BgtOccName"]["value"].lower()`
from the loop body of `BG_ONET_BGTocc_mapping`; a missing key or a
non-string value raises. -/
def parseBinding (j : Json) : Except String (String × String) :=
  match ((j.get? "OnetName").bind (fun v => v.get? "value")).bind Json.asStr? with
  | none => .error "KeyError"
  | some onetName =>
    match ((j.get? "BgtOccName").bind (fun v => v.get? "value")).bind Json.asStr? with
    | none => .error "KeyError"
    | some bgtName => .ok (pyLower onetName, pyLower bgtName)

/-- Embeds the subscripting `response["results"]["bindings"]` followed by
iteration: the binding list of the response body, if the shape allows it. -/
def getBindings (body : Json) : Option (List Json) :=
  ((body.get? "results").bind (fun v => v.get? "bindings")).bind Json.asArr?

/-- Response processing of `BG_ONET_BGTocc_mapping`: from the HTTP status
code and the decoded JSON body to the bridge table of lowercased
(ONET 2010 name, BgtOcc name) pairs.  The source reads only
`response.text`; the status code argument reflects that the response
status is available to the code but unused. -/
def BG_ONET_BGTocc_mapping (status : Nat) (body : Json) :
    Except String (List (String × String)) :=
  match getBindings body with
  | none => .error "KeyError"
  | some bs => mapE parseBinding bs

/-- Convenience constructor for a well-formed SPARQL binding object, used
to state theorems about `parseBinding`. -/
def bindingJson (onetName bgtName : String) : Json :=
  Json.obj [("OnetName", Json.obj [("value", Json.str onetName)]),
            ("BgtOccName", Json.obj [("value", Json.str bgtName)])]

/-- Convenience constructor for a response body of the expected shape,
wrapping a list of bindings under `results.bindings`. -/
def bindingResponse (bs : List Json) : Json :=
  Json.obj [("results", Json.obj [("bindings", Json.arr bs)])]

/-! ## Stage 1: `clean_data` (growth-table builder) -/

/-- A row of the agency spreadsheet after the renames of `clean_data`:
`Occupation type`, `2019 National Employment Matrix title` (a raw cell
that may hold a non-string, e.g. NaN, embedded as `none`) and
`Employment change, percent, 2019-29`. -/
structure BlsRaw (α : Type) where
  occupationType : String
  name2019 : Option String
  employmentGrowth : α
deriving DecidableEq

/-- A raw crosswalk row: the `O*NET-SOC 2010 Title` and
`O*NET-SOC 2019 Title` cells, each possibly a non-string. -/
structure CwRaw where
  title2010 : Option String
  title2019 : Option String
deriving DecidableEq

/-- An agency row after name cleaning: `name_2019` normalized. -/
structure BlsClean (α : Type) where
  name2019 : String
  employmentGrowth : α
deriving DecidableEq

/-- A crosswalk row after name cleaning: `name` (2010) and `name_2019`
both normalized. -/
structure CwClean where
  name : String
  name2019 : String
deriving DecidableEq

/-- A row of the growth table returned by `clean_data`: the 2010 title
`name` (null when the left merge found no crosswalk match) and the raw
growth value. -/
structure GrowthRow (α : Type) where
  name : Option String
  employmentGrowth : α
deriving DecidableEq

/-- Embeds `i.strip().lower()` on one cell: fails when the cell does not
hold a string. -/
def strCell : Option String → Option String
  | some s => some (pyLower (pyStrip s))
  | none => none

/-- Embeds `df_bls["name_2019"] = [i.strip().lower() for i in df_bls["name_2019"]]`. -/
def cleanBls {α : Type} (rows : List (BlsRaw α)) : Option (List (BlsClean α)) :=
  mapStrict (fun b => (strCell b.name2019).map
    (fun n => BlsClean.mk n b.employmentGrowth)) rows

/-- Embeds the two crosswalk comprehensions building `name` and `name_2019`. -/
def cleanCw (rows : List CwRaw) : Option (List CwClean) :=
  mapStrict (fun c => (strCell c.title2010).bind
    (fun n => (strCell c.title2019).map (fun n19 => CwClean.mk n n19))) rows

/-- The block of growth-table rows the left merge of `clean_data`
produces for one agency row: one row per crosswalk row matching its 2019
title, or a single row with a null 2010 title when none matches. -/
def growthRowsFor {α : Type} (b : BlsClean α) (cw : List CwClean) : List (GrowthRow α) :=
  match cw.filter (fun c => c.name2019 == b.name2019) with
  | [] => [GrowthRow.mk none b.employmentGrowth]
  | m :: ms => (m :: ms).map (fun c => GrowthRow.mk (some c.name) b.employmentGrowth)

/-- Embeds `df_bls.merge(df_onet_map, on="name_2019", how="left")`
followed by the projection `df[["name", "employmentGrowth"]]`: one block
of output rows per agency row. -/
def growthTable {α : Type} (bls : List (BlsClean α)) (cw : List CwClean) :
    List (GrowthRow α) :=
  flatMapL (fun b => growthRowsFor b cw) bls

/-- The in-memory transformation of `clean_data`: line-item filter, name
cleaning of both inputs, then the left merge. -/
def clean_data {α : Type} (bls : List (BlsRaw α)) (cw : List CwRaw) :
    Option (List (GrowthRow α)) :=
  match cleanBls (bls.filter (fun b => b.occupationType == "Line item")) with
  | none => none
  | some blsC =>
    match cleanCw cw with
    | none => none
    | some cwC => some (growthTable blsC cwC)

/-! ## Stage 3: `merge_data` (reconciler) -/

/-- A bridge-table row after the rename `bgtocc → bgtOccInfo`. -/
structure MapRow where
  onet : String
  bgtOccInfo : String
deriving DecidableEq

/-- A row of the step-1 intermediate
`df_bls.merge(df_map, left_on="name", right_on="onet", how="inner")`:
both key columns survive the merge. -/
structure Step1Row (α : Type) where
  name : Option String
  employmentGrowth : α
  onet : String
  bgtOccInfo : String
deriving DecidableEq

/-- A row of the internal occupations table: an identifier standing for
the non-join columns, the record name, the coarse taxonomy label
`bgtOccInfo` and a pre-existing nullable growth column. -/
structure OccRow (α : Type) where
  id : Nat
  name : String
  bgtOccInfo : String
  employmentGrowth : Option α
deriving DecidableEq

/-- A row of the reconciled output after the drops and renames of
`merge_data`: `name_x → name`, `bgtOccInfo_x → bgtOccInfo`,
`employmentGrowth_y → employmentGrowth`, `onet → ONET_name`. -/
structure MergedRow (α : Type) where
  id : Nat
  name : String
  bgtOccInfo : String
  employmentGrowth : Option α
  ONET_name : Option String
deriving DecidableEq

/-- Embeds `df_bls.merge(df_map, left_on="name", right_on="onet",
how="inner")` with the rename `bgtocc → bgtOccInfo`: a null `name` (NaN)
matches nothing. -/
def step1 {α : Type} (g : List (GrowthRow α)) (m : List MapRow) : List (Step1Row α) :=
  flatMapL (fun gr =>
    (m.filter (fun r => gr.name == some r.onet)).map
      (fun r => Step1Row.mk gr.name gr.employmentGrowth r.onet r.bgtOccInfo)) g

/-- Embeds the column `occu["bgtOccInfo_lower"] = occu["bgtOccInfo"].str.lower()`. -/
def bgtOccInfoLower {α : Type} (o : OccRow α) : String :=
  pyLower o.bgtOccInfo

/-- The block of output rows the left merge of `merge_data` produces for
one occupation record: one row per matching intermediate row, or a single
null-padded row when nothing matches; the drops and renames of
`merge_data` are applied. -/
def rowsFor {α : Type} (o : OccRow α) (inter : List (Step1Row α)) : List (MergedRow α) :=
  match inter.filter (fun s => bgtOccInfoLower o == s.bgtOccInfo) with
  | [] => [MergedRow.mk o.id o.name o.bgtOccInfo none none]
  | m :: ms => (m :: ms).map
      (fun s => MergedRow.mk o.id o.name o.bgtOccInfo (some s.employmentGrowth) (some s.onet))

/-- The in-memory transformation of `merge_data`: step-1 inner merge of
the growth table with the bridge, then the left merge of the occupations
table with the intermediate, with the collision drops and renames. -/
def merge_data {α : Type} (occu : List (OccRow α)) (g : List (GrowthRow α))
    (m : List MapRow) : List (MergedRow α) :=
  flatMapL (fun o => rowsFor o (step1 g m)) occu

/-! ## Helper lemmas on the list combinators -/

theorem flatMapL_mem {α β : Type} (f : α → List β) (l : List α) (b : β) :
    b ∈ flatMapL f l ↔ ∃ a ∈ l, b ∈ f a := by
  induction l with
  | nil => simp [flatMapL]
  | cons a as ih => simp [flatMapL, List.mem_append, ih]

theorem flatMapL_length {α β : Type} (f : α → List β) (l : List α) :
    (flatMapL f l).length = (l.map (fun a => (f a).length)).sum := by
  induction l with
  | nil => rfl
  | cons a as ih => simp [flatMapL, ih]

theorem flatMapL_map {α β γ : Type} (f : β → List γ) (g : α → β) (l : List α) :
    flatMapL f (l.map g) = flatMapL (fun a => f (g a)) l := by
  induction l with
  | nil => rfl
  | cons a as ih => simp [flatMapL, ih]

theorem mapStrict_eq_none_iff {α β : Type} (f : α → Option β) (l : List α) :
    mapStrict f l = none ↔ ∃ a ∈ l, f a = none := by
  induction l with
  | nil => simp [mapStrict]
  | cons a as ih =>
    cases h : f a with
    | none => simp [mapStrict, h]
    | some b => simp [mapStrict, h, ih]

theorem mapStrict_mem {α β : Type} (f : α → Option β) (l : List α) :
    ∀ l2, mapStrict f l = some l2 → ∀ b ∈ l2, ∃ a ∈ l, f a = some b := by
  induction l with
  | nil =>
    intro l2 h b hb
    simp [mapStrict] at h
    subst h
    simp at hb
  | cons a as ih =>
    intro l2 h b hb
    simp only [mapStrict] at h
    cases ha : f a with
    | none => simp [ha] at h
    | some c =>
      rw [ha] at h
      cases hrest : mapStrict f as with
      | none => simp [hrest] at h
      | some cs =>
        rw [hrest] at h
        simp only [Option.map_some'] at h
        injection h with h
        subst h
        rcases List.mem_cons.mp hb with hb | hb
        · exact ⟨a, List.mem_cons_self a as, by rw [ha, hb]⟩
        · obtain ⟨x, hx, hfx⟩ := ih cs hrest b hb
          exact ⟨x, List.mem_cons_of_mem a hx, hfx⟩

theorem rowsFor_length {α : Type} (o : OccRow α) (inter : List (Step1Row α)) :
    (rowsFor o inter).length =
      max ((inter.filter (fun s => bgtOccInfoLower o == s.bgtOccInfo)).length) 1 := by
  cases h : inter.filter (fun s => bgtOccInfoLower o == s.bgtOccInfo) with
  | nil => simp [rowsFor, h]
  | cons m ms => simp [rowsFor, h]

theorem growthRowsFor_length {α : Type} (b : BlsClean α) (cw : List CwClean) :
    (growthRowsFor b cw).length =
      max ((cw.filter (fun c => c.name2019 == b.name2019)).length) 1 := by
  cases h : cw.filter (fun c => c.name2019 == b.name2019) with
  | nil => simp [growthRowsFor, h]
  | cons c cs => simp [growthRowsFor, h]

theorem growthTable_mem_growth {α : Type} (bls : List (BlsClean α)) (cw : List CwClean)
    (r : GrowthRow α) (h : r ∈ growthTable bls cw) :
    ∃ b ∈ bls, r.employmentGrowth = b.employmentGrowth := by
  unfold growthTable at h
  rw [flatMapL_mem] at h
  obtain ⟨b, hb, hr⟩ := h
  refine ⟨b, hb, ?_⟩
  unfold growthRowsFor at hr
  revert hr
  cases hf : cw.filter (fun c => c.name2019 == b.name2019) with
  | nil =>
    intro hr
    simp only [List.mem_singleton] at hr
    subst hr
    rfl
  | cons m ms =>
    intro hr
    simp only [List.mem_map] at hr
    obtain ⟨c, _, hc⟩ := hr
    subst hc
    rfl

theorem cleanBls_eq_none_iff {α : Type} (rows : List (BlsRaw α)) :
    cleanBls rows = none ↔ ∃ b ∈ rows, b.name2019 = none := by
  unfold cleanBls
  rw [mapStrict_eq_none_iff]
  refine exists_congr fun b => and_congr_right fun _ => ?_
  cases h : b.name2019 <;> simp [strCell, h]

theorem cleanCw_eq_none_iff (rows : List CwRaw) :
    cleanCw rows = none ↔ ∃ c ∈ rows, c.title2010 = none ∨ c.title2019 = none := by
  unfold cleanCw
  rw [mapStrict_eq_none_iff]
  refine exists_congr fun c => and_congr_right fun _ => ?_
  cases h1 : c.title2010 <;> cases h2 : c.title2019 <;> simp [strCell, h1, h2]

/-! ## Claim theorems -/

/-- C6: the first step of `merge_data` is an inner join of the growth
table (on its 2010-title column `name`) with the bridge table (on
`onet`): a row is in the intermediate exactly when some growth row and
some bridge row agree on the key, and that row carries the coarse label
`bgtOccInfo` and the growth percentage of the matching pair.  A growth
row matching no bridge row contributes nothing. -/
theorem step1_is_inner_join {α : Type} (g : List (GrowthRow α)) (m : List MapRow)
    (s : Step1Row α) :
    s ∈ step1 g m ↔ ∃ gr ∈ g, ∃ r ∈ m, gr.name = some r.onet ∧
      s = Step1Row.mk gr.name gr.employmentGrowth r.onet r.bgtOccInfo := by
  unfold step1
  rw [flatMapL_mem]
  constructor
  · rintro ⟨gr, hgr, hs⟩
    simp only [List.mem_map, List.mem_filter] at hs
    obtain ⟨r, ⟨hr, hkey⟩, hsr⟩ := hs
    exact ⟨gr, hgr, r, hr, by simpa using hkey, hsr.symm⟩
  · rintro ⟨gr, hgr, r, hr, hkey, hs⟩
    refine ⟨gr, hgr, ?_⟩
    simp only [List.mem_map, List.mem_filter]
    exact ⟨r, ⟨hr, by simpa using hkey⟩, hs.symm⟩

/-- C10: `clean_data` normalizes with `.strip().lower()` exactly the
agency 2019-title cells that survive the line-item filter and both
crosswalk title columns, so it raises (returns no table) precisely when
one of those cells holds a non-string. -/
theorem clean_data_raises_iff_nonstring_title {α : Type} (bls : List (BlsRaw α))
    (cw : List CwRaw) :
    clean_data bls cw = none ↔
      (∃ b ∈ bls.filter (fun b => b.occupationType == "Line item"), b.name2019 = none) ∨
      ∃ c ∈ cw, c.title2010 = none ∨ c.title2019 = none := by
  unfold clean_data
  cases h1 : cleanBls (bls.filter (fun b => b.occupationType == "Line item")) with
  | none =>
    constructor
    · intro _
      exact Or.inl ((cleanBls_eq_none_iff _).mp h1)
    · intro _
      rfl
  | some blsC =>
    cases h2 : cleanCw cw with
    | none =>
      constructor
      · intro _
        exact Or.inr ((cleanCw_eq_none_iff _).mp h2)
      · intro _
        rfl
    | some cwC =>
      constructor
      · intro hcon
        exact Option.noConfusion hcon
      · rintro (hbad | hbad)
        · rw [(cleanBls_eq_none_iff _).mpr hbad] at h1
          exact Option.noConfusion h1
        · rw [(cleanCw_eq_none_iff _).mpr hbad] at h2
          exact Option.noConfusion h2

/-- C7: every row of the growth table built by `clean_data` takes its
growth value from an agency row whose `Occupation type` is the line-item
(leaf) category, so aggregate/summary agency rows are excluded from the
growth table. -/
theorem clean_data_only_line_items {α : Type} (bls : List (BlsRaw α)) (cw : List CwRaw)
    (gt : List (GrowthRow α)) (h : clean_data bls cw = some gt) :
    ∀ r ∈ gt, ∃ b ∈ bls, b.occupationType = "Line item" ∧
      r.employmentGrowth = b.employmentGrowth := by
  intro r hr
  unfold clean_data at h
  cases h1 : cleanBls (bls.filter (fun b => b.occupationType == "Line item")) with
  | none =>
    rw [h1] at h
    exact Option.noConfusion h
  | some blsC =>
    rw [h1] at h
    cases h2 : cleanCw cw with
    | none =>
      rw [h2] at h
      exact Option.noConfusion h
    | some cwC =>
      rw [h2] at h
      injection h with h
      subst h
      obtain ⟨bc, hbc, hgrow⟩ := growthTable_mem_growth blsC cwC r hr
      obtain ⟨b, hbmem, hfb⟩ := mapStrict_mem _ _ blsC h1 bc hbc
      rw [List.mem_filter] at hbmem
      obtain ⟨hbin, htype⟩ := hbmem
      refine ⟨b, hbin, by simpa using htype, ?_⟩
      cases hc : strCell b.name2019 with
      | none =>
        rw [hc] at hfb
        exact Option.noConfusion hfb
      | some n =>
        rw [hc] at hfb
        simp only [Option.map_some'] at hfb
        injection hfb with hfb
        rw [hgrow, ← hfb]

/-- Witness for C7 at a concrete input: a two-row agency table with one
line-item row (growth 5) and one summary row (growth 6); the single
growth-table row traces back to the line-item row. -/
theorem clean_data_only_line_items_witness :
    ∃ b ∈ [BlsRaw.mk "Line item" (some "T") (5 : Int), BlsRaw.mk "Summary" (some "U") 6],
      b.occupationType = "Line item" ∧
      (GrowthRow.mk (none : Option String) (5 : Int)).employmentGrowth = b.employmentGrowth :=
  clean_data_only_line_items
    [BlsRaw.mk "Line item" (some "T") (5 : Int), BlsRaw.mk "Summary" (some "U") 6] []
    [GrowthRow.mk none 5] (by decide) (GrowthRow.mk none 5) (by decide)

/-- C3 counterexample: a crosswalk entry whose 2019 title matches no
agency row does not appear in the growth table with a null growth — it is
dropped: with an empty agency table and a one-entry crosswalk,
`clean_data` returns an empty growth table instead of one row. -/
theorem clean_data_crosswalk_only_row_dropped :
    clean_data ([] : List (BlsRaw Int)) [CwRaw.mk (some "a") (some "b")] = some [] ∧
    [CwRaw.mk (some "a") (some "b")].length = 1 :=
  ⟨rfl, rfl⟩

/-- C3 (amended): the merge in `clean_data` is a left join with the
agency table on the left and the crosswalk on the right: it produces one
output row per line-item agency row and matching crosswalk entry (at
least one row per agency row, with a null 2010 title when no crosswalk
entry matches, never an error), every output row takes its growth from an
agency row, and a crosswalk entry matching no agency row contributes
nothing. -/
theorem growthTable_left_join_on_agency {α : Type} (bls : List (BlsClean α))
    (cw : List CwClean) :
    (growthTable bls cw).length =
      (bls.map (fun b => max ((cw.filter (fun c => c.name2019 == b.name2019)).length) 1)).sum ∧
    (∀ b ∈ bls, cw.filter (fun c => c.name2019 == b.name2019) = [] →
      GrowthRow.mk none b.employmentGrowth ∈ growthTable bls cw) ∧
    ∀ r ∈ growthTable bls cw, ∃ b ∈ bls, r.employmentGrowth = b.employmentGrowth := by
  refine ⟨?_, ?_, ?_⟩
  · unfold growthTable
    induction bls with
    | nil => rfl
    | cons b bs ih =>
      simp only [flatMapL, List.length_append, List.map_cons, List.sum_cons, ih,
        growthRowsFor_length]
  · intro b hb hempty
    unfold growthTable
    rw [flatMapL_mem]
    refine ⟨b, hb, ?_⟩
    unfold growthRowsFor
    rw [hempty]
    simp
  · exact fun r hr => growthTable_mem_growth bls cw r hr

/-- Witness for C3 (amended) at a concrete input: a single agency row
with no crosswalk match yields the null-padded growth row. -/
theorem growthTable_left_join_on_agency_witness :
    GrowthRow.mk (none : Option String) (5 : Int) ∈ growthTable [BlsClean.mk "t" 5] [] :=
  (growthTable_left_join_on_agency [BlsClean.mk "t" (5 : Int)] []).2.1
    (BlsClean.mk "t" 5) (by decide) rfl

/-- C1 counterexample: one occupation record whose coarse label matches
two step-1 intermediate rows is emitted twice by `merge_data`: the output
has 2 rows for a 1-row occupations table, so the row count is not always
preserved. -/
theorem merge_data_row_count_counterexample :
    (merge_data [OccRow.mk 1 "n" "A" (none : Option Int)]
        [GrowthRow.mk (some "o1") (5 : Int), GrowthRow.mk (some "o2") 7]
        [MapRow.mk "o1" "a", MapRow.mk "o2" "a"]).length = 2 ∧
    [OccRow.mk 1 "n" "A" (none : Option Int)].length = 1 :=
  ⟨rfl, rfl⟩

/-- C1 (amended): `merge_data` never drops an occupation record but may
duplicate one: the output has at least one row per occupation record, and
its length is the sum, over the records in order, of the number of
matching step-1 intermediate rows (or 1 when there is no match); the
length equals the occupations count exactly when no record's lowercased
coarse label matches more than one step-1 row. -/
theorem merge_data_row_count {α : Type} (occu : List (OccRow α))
    (g : List (GrowthRow α)) (m : List MapRow) :
    occu.length ≤ (merge_data occu g m).length ∧
    (merge_data occu g m).length =
      (occu.map (fun o =>
        max (((step1 g m).filter (fun s => bgtOccInfoLower o == s.bgtOccInfo)).length) 1)).sum := by
  constructor
  · unfold merge_data
    induction occu with
    | nil => simp
    | cons a as ih =>
      simp only [flatMapL, List.length_append, List.length_cons]
      have h1 := rowsFor_length a (step1 g m)
      have h2 := Nat.le_max_right
        (((step1 g m).filter (fun s => bgtOccInfoLower a == s.bgtOccInfo)).length) 1
      omega
  · unfold merge_data
    induction occu with
    | nil => rfl
    | cons a as ih =>
      simp only [flatMapL, List.length_append, List.map_cons, List.sum_cons, ih,
        rowsFor_length]

/-- C8: the block of `merge_data` output rows produced for an occupation
record depends, in its growth values, only on the lowercased coarse
label: two records whose coarse labels agree up to case receive the
identical sequence of growth values (the match is case-insensitive), and
when the shared label matches no step-1 row that sequence is the single
null.  Since `merge_data` is the concatenation of these blocks over the
occupations table, all N records sharing a coarse label carry identical
growth data. -/
theorem merge_data_shared_label_same_growth {α : Type} (g : List (GrowthRow α))
    (m : List MapRow) (o1 o2 : OccRow α)
    (h : pyLower o1.bgtOccInfo = pyLower o2.bgtOccInfo) :
    ((merge_data [o1] g m).map (fun r => r.employmentGrowth) =
      (merge_data [o2] g m).map (fun r => r.employmentGrowth)) ∧
    ((step1 g m).filter (fun s => bgtOccInfoLower o1 == s.bgtOccInfo) = [] →
      (merge_data [o1] g m).map (fun r => r.employmentGrowth) = [none]) := by
  have hkey : bgtOccInfoLower o1 = bgtOccInfoLower o2 := h
  have hblock : ∀ o : OccRow α, merge_data [o] g m = rowsFor o (step1 g m) := by
    intro o
    simp [merge_data, flatMapL]
  constructor
  · rw [hblock, hblock]
    unfold rowsFor
    rw [hkey]
    cases hf : (step1 g m).filter (fun s => bgtOccInfoLower o2 == s.bgtOccInfo) with
    | nil => simp
    | cons s ss => simp
  · intro hempty
    rw [hblock]
    unfold rowsFor
    rw [hempty]
    simp

/-- Witness for C8 at the concrete example of the spec: two records with
coarse labels differing only in case both receive growth 22 from the
bridge row pairing that label with the fine name carrying the growth. -/
theorem merge_data_shared_label_same_growth_witness :
    (merge_data [OccRow.mk 1 "r1" "Software Engineer II" (none : Option Int)]
        [GrowthRow.mk (some "software developers") (22 : Int)]
        [MapRow.mk "software developers" "software engineer ii"]).map
        (fun r => r.employmentGrowth) =
      (merge_data [OccRow.mk 2 "r2" "software engineer ii" (none : Option Int)]
        [GrowthRow.mk (some "software developers") (22 : Int)]
        [MapRow.mk "software developers" "software engineer ii"]).map
        (fun r => r.employmentGrowth) :=
  (merge_data_shared_label_same_growth
    [GrowthRow.mk (some "software developers") (22 : Int)]
    [MapRow.mk "software developers" "software engineer ii"]
    (OccRow.mk 1 "r1" "Software Engineer II" none)
    (OccRow.mk 2 "r2" "software engineer ii" none) (by decide)).1

/-- C5: in every `merge_data` output row, the value under `name` is the
occupation record's own name (pandas suffixes the collision, the code
drops `name_y` and renames `name_x` back to `name`), the coarse label is
the record's own `bgtOccInfo`, and the value under `employmentGrowth` is
the agency-derived growth of a step-1 intermediate row, or null when no
row matches (`employmentGrowth_y` kept, `employmentGrowth_x` dropped). -/
theorem merge_data_collision_resolution {α : Type} (occu : List (OccRow α))
    (g : List (GrowthRow α)) (m : List MapRow) :
    ∀ r ∈ merge_data occu g m, ∃ o ∈ occu, r.name = o.name ∧ r.bgtOccInfo = o.bgtOccInfo ∧
      (r.employmentGrowth = none ∨
        ∃ s ∈ step1 g m, r.employmentGrowth = some s.employmentGrowth) := by
  intro r hr
  unfold merge_data at hr
  rw [flatMapL_mem] at hr
  obtain ⟨o, ho, hrow⟩ := hr
  refine ⟨o, ho, ?_⟩
  unfold rowsFor at hrow
  revert hrow
  cases hf : (step1 g m).filter (fun s => bgtOccInfoLower o == s.bgtOccInfo) with
  | nil =>
    intro hrow
    simp only [List.mem_singleton] at hrow
    subst hrow
    exact ⟨rfl, rfl, Or.inl rfl⟩
  | cons s ss =>
    intro hrow
    simp only [List.mem_map] at hrow
    obtain ⟨s0, hs0, hr0⟩ := hrow
    subst hr0
    refine ⟨rfl, rfl, Or.inr ⟨s0, ?_, rfl⟩⟩
    rw [← hf] at hs0
    exact (List.mem_filter.mp hs0).1

/-- Witness for C5 at a concrete input: the matched output row keeps the
record name under `name` and carries the agency growth 5 under
`employmentGrowth`, although the input record carried growth 9. -/
theorem merge_data_collision_resolution_witness :
    ∃ o ∈ [OccRow.mk 1 "nm" "a" (some (9 : Int))],
      (MergedRow.mk 1 "nm" "a" (some (5 : Int)) (some "o")).name = o.name ∧
      (MergedRow.mk 1 "nm" "a" (some (5 : Int)) (some "o")).bgtOccInfo = o.bgtOccInfo ∧
      ((MergedRow.mk 1 "nm" "a" (some (5 : Int)) (some "o")).employmentGrowth = none ∨
        ∃ s ∈ step1 [GrowthRow.mk (some "o") (5 : Int)] [MapRow.mk "o" "a"],
          (MergedRow.mk 1 "nm" "a" (some (5 : Int)) (some "o")).employmentGrowth =
            some s.employmentGrowth) :=
  merge_data_collision_resolution [OccRow.mk 1 "nm" "a" (some (9 : Int))]
    [GrowthRow.mk (some "o") (5 : Int)] [MapRow.mk "o" "a"]
    (MergedRow.mk 1 "nm" "a" (some 5) (some "o")) (by decide)

theorem flatMapL_congr {α β : Type} (f g : α → List β) (l : List α)
    (h : ∀ a ∈ l, f a = g a) : flatMapL f l = flatMapL g l := by
  induction l with
  | nil => rfl
  | cons a as ih =>
    simp only [flatMapL, h a (List.mem_cons_self a as),
      ih (fun x hx => h x (List.mem_cons_of_mem a hx))]

/-- C9: `merge_data` discards the occupation table's pre-existing
`employmentGrowth` column entirely — its output is invariant under
arbitrary rewriting of that column — and a record with no matching
step-1 row produces exactly one output row whose `id`, `name` and
`bgtOccInfo` are the record's own values unchanged and whose growth is
null, whatever the input growth was. -/
theorem merge_data_drops_input_growth {α : Type} (occu : List (OccRow α))
    (g : List (GrowthRow α)) (m : List MapRow) (f : OccRow α → Option α) :
    merge_data (occu.map (fun o => OccRow.mk o.id o.name o.bgtOccInfo (f o))) g m =
      merge_data occu g m ∧
    ∀ o : OccRow α, (step1 g m).filter (fun s => bgtOccInfoLower o == s.bgtOccInfo) = [] →
      rowsFor o (step1 g m) = [MergedRow.mk o.id o.name o.bgtOccInfo none none] := by
  constructor
  · unfold merge_data
    rw [flatMapL_map]
    exact flatMapL_congr _ _ occu (fun a _ => rfl)
  · intro o hempty
    unfold rowsFor
    rw [hempty]

/-- Witness for C9 at a concrete input: a record carrying non-null input
growth 99 and an unmatched label ends as a single row with null growth
and its other columns unchanged. -/
theorem merge_data_drops_input_growth_witness :
    rowsFor (OccRow.mk 1 "nm" "zz" (some (99 : Int))) (step1 [] []) =
      [MergedRow.mk 1 "nm" "zz" none none] :=
  (merge_data_drops_input_growth ([] : List (OccRow Int)) [] []
    (fun o => o.employmentGrowth)).2 (OccRow.mk 1 "nm" "zz" (some 99)) (by decide)

/-- C2 counterexample: join keys outside `clean_data` are not
strip-normalized.  An occupation record with coarse label " A" (leading
space) fails to join with a step-1 row whose coarse label is "a", even
though strip-then-lower of " A" is "a", so the record ends with a null
growth; and the bridge fetcher returns the label " a" with its leading
space intact, which is not a stripped string. -/
theorem join_keys_not_all_stripped :
    merge_data [OccRow.mk 1 "n" " A" (none : Option Int)]
        [GrowthRow.mk (some "o") (5 : Int)] [MapRow.mk "o" "a"] =
      [MergedRow.mk 1 "n" " A" none none] ∧
    pyLower (pyStrip " A") = "a" ∧
    BG_ONET_BGTocc_mapping 200 (bindingResponse [bindingJson " A" "b"]) =
      .ok [(" a", "b")] ∧
    pyStrip " a" ≠ " a" :=
  ⟨rfl, rfl, rfl, by decide⟩

/-- C2 (amended): each join key gets exactly the normalization its own
stage applies — `clean_data` normalizes the agency and crosswalk title
cells by strip-then-lower, while the bridge fetcher lowercases its two
labels without stripping, and the occupations-side key of the final join
(`bgtOccInfo_lower`) is likewise lowercased without stripping, making the
joins after `clean_data` case-insensitive but whitespace-sensitive. -/
theorem normalization_per_join_key :
    (∀ s : String, strCell (some s) = some (pyLower (pyStrip s))) ∧
    (∀ v1 v2 : String,
      parseBinding (bindingJson v1 v2) = .ok (pyLower v1, pyLower v2)) ∧
    (∀ o : OccRow Int, bgtOccInfoLower o = pyLower o.bgtOccInfo) :=
  ⟨fun _ => rfl, fun _ _ => rfl, fun _ => rfl⟩

/-- C4 counterexample: a response with a non-2xx status (500) whose body
has the expected shape is parsed silently into a bridge table — the
fetch does not fail on HTTP status, contradicting the claimed
RemoteServiceError behaviour. -/
theorem bridge_fetch_accepts_non_2xx :
    BG_ONET_BGTocc_mapping 500 (bindingResponse [bindingJson "A" "B"]) =
      .ok [("a", "b")] :=
  rfl

/-- C4 (amended): the fetch ignores the HTTP status entirely — its result
depends only on the decoded body — and a body missing the
results/bindings keys makes it fail with a bare KeyError-style exception
carrying neither status nor body; there is no dedicated
RemoteServiceError. -/
theorem bridge_fetch_status_and_shape (s1 s2 : Nat) (body : Json) :
    BG_ONET_BGTocc_mapping s1 body = BG_ONET_BGTocc_mapping s2 body ∧
    (getBindings body = none →
      BG_ONET_BGTocc_mapping s1 body = .error "KeyError") := by
  constructor
  · rfl
  · intro h
    unfold BG_ONET_BGTocc_mapping
    rw [h]

/-- Witness for C4 (amended) at a concrete input: statuses 500 and 200
give the same result on an empty-object body, and that body, missing the
expected keys, produces the KeyError-style failure. -/
theorem bridge_fetch_status_and_shape_witness :
    BG_ONET_BGTocc_mapping 500 (Json.obj []) = BG_ONET_BGTocc_mapping 200 (Json.obj []) ∧
    BG_ONET_BGTocc_mapping 500 (Json.obj []) = .error "KeyError" :=
  ⟨(bridge_fetch_status_and_shape 500 200 (Json.obj [])).1,
   (bridge_fetch_status_and_shape 500 200 (Json.obj [])).2 rfl⟩
